import Mathlib

/-!
A verification development for the `structmap` Go package: a codec between
Go struct values and flat `map[string][]string` mappings driven by `map:"..."`
struct tags.  The definitions below are a shallow embedding of the source
files `marshal.go`, `unmarshal.go` and `cache.go` (package `structmap`):
reflection over Go types is replaced by an explicit inductive type of the
type shapes the package handles, `reflect.Value` by an explicit value tree,
and the Go map by an association list.  Stateful code (map writes, in-place
field updates) is rendered as explicit state passing; fallible code returns
`Except`.
-/

namespace Structmap

/-! ## Flat mappings

`map[string][]string`, modelled as an association list with first-match
lookup.  `mapSet` models `v[key] = value` (overwrite or insert); the Go
source writes `v[m.key] = append(v[m.key][:0], val...)`, which reuses the
backing storage but is observationally an overwrite, so it is modelled as
`mapSet`. -/

abbrev Mapping := List (String × List String)

def mapGet (v : Mapping) (key : String) : Option (List String) :=
  match v with
  | [] => none
  | (k, val) :: rest => if k == key then some val else mapGet rest key

def mapSet (v : Mapping) (key : String) (val : List String) : Mapping :=
  match v with
  | [] => [(key, val)]
  | (k, v0) :: rest => if k == key then (key, val) :: rest else (k, v0) :: mapSet rest key val

/-! ## Go types and values

`GoType` captures the type shapes the package dispatches on via
`reflect.Kind` plus the `ValueMarshaler` / `ValueUnmarshaler` capability
checks.  `customT valRecv` is a named type implementing the value
conversion interfaces, with `valRecv = true` when the methods use a value
receiver (so the type itself implements the interface) and `false` when
they use a pointer receiver (only the pointer type implements it).
`otherT kind` is any unsupported kind, carrying its kind string for error
messages (e.g. "float64").  A struct field is (declared name, `map` tag
content, anonymous flag, type). -/

inductive GoType : Type where
  | stringT : GoType
  | intT (bits : Nat) : GoType
  | sliceT (elem : GoType) : GoType
  | ptrT (elem : GoType) : GoType
  | structT (fields : List (String × String × Bool × GoType)) : GoType
  | customT (valRecv : Bool) : GoType
  | otherT (kind : String) : GoType

abbrev GoField := String × String × Bool × GoType

def fldName (f : GoField) : String := f.1
def fldTag (f : GoField) : String := f.2.1
def fldAnon (f : GoField) : Bool := f.2.2.1
def fldType (f : GoField) : GoType := f.2.2.2

/-- Values, mirroring the shapes of `reflect.Value` the package touches.
A `custom` value is a value of a `customT` type; its payload is the string
sequence its `MarshalValue` method returns (and that `UnmarshalValue`
stores), matching the `RawValue []string` type used in the repository's
tests. -/
inductive GoValue : Type where
  | str (s : String) : GoValue
  | int (n : Int) : GoValue
  | slice (elems : List GoValue) : GoValue
  | ptr (pointee : Option GoValue) : GoValue
  | structV (fields : List GoValue) : GoValue
  | custom (payload : List String) : GoValue

/-- Kind string of a value, as used in `reflect` panic messages. -/
def kindStr : GoValue → String
  | .str _ => "string"
  | .int _ => "int64"
  | .slice _ => "slice"
  | .ptr _ => "ptr"
  | .structV _ => "struct"
  | .custom _ => "slice"

/-- Kind string of a type, as used in the compile error messages
(`typ.Kind().String()`).  `customT` stands for the test suite's
`RawValue []string`, hence kind "slice". -/
def typeKindStr : GoType → String
  | .stringT => "string"
  | .intT _ => "int64"
  | .sliceT _ => "slice"
  | .ptrT _ => "ptr"
  | .structT _ => "struct"
  | .customT _ => "slice"
  | .otherT kind => kind

/-- Errors: ordinary Go `error` values versus runtime panics (which the
source never recovers from, but which the embedding must surface to state
what the code does on a bad path). -/
inductive GoErr : Type where
  | err (msg : String) : GoErr
  | panic (msg : String) : GoErr
deriving DecidableEq

/-- `reflect.Value.String`: returns the string, or a placeholder for any
other kind (the embedding renders the placeholder from the kind; the
source renders it from the type, which the embedding erases). -/
def goStringVal : GoValue → String
  | .str s => s
  | v => "<" ++ kindStr v ++ " Value>"

/-- `reflect.Value.Int`: panics unless the value has an integer kind. -/
def goIntVal : GoValue → Except GoErr Int
  | .int n => .ok n
  | v => .error (.panic ("reflect: call of reflect.Value.Int on " ++ kindStr v ++ " Value"))

/-- `reflect.Value.Len` for slices. -/
def goLenVal : GoValue → Except GoErr Nat
  | .slice xs => .ok xs.length
  | v => .error (.panic ("reflect: call of reflect.Value.Len on " ++ kindStr v ++ " Value"))

/-- `reflect.Value.IsNil` for pointers. -/
def goIsNil : GoValue → Except GoErr Bool
  | .ptr pointee => .ok pointee.isNone
  | v => .error (.panic ("reflect: call of reflect.Value.IsNil on " ++ kindStr v ++ " Value"))

/-- `reflect.Value.Field i` on a struct value. -/
def goField : GoValue → Nat → Except GoErr GoValue
  | .structV fs, i =>
      match fs.get? i with
      | some x => .ok x
      | none => .error (.panic "reflect: Field index out of range")
  | v, _ => .error (.panic ("reflect: call of reflect.Value.Field on " ++ kindStr v ++ " Value"))

/-- Replace field `i` of a struct value (the effect of writing through
`dst.Field(i)`). -/
def goSetField : GoValue → Nat → GoValue → Except GoErr GoValue
  | .structV fs, i, x =>
      match fs.get? i with
      | some _ => .ok (.structV (fs.set i x))
      | none => .error (.panic "reflect: Field index out of range")
  | v, _, _ => .error (.panic ("reflect: call of reflect.Value.Field on " ++ kindStr v ++ " Value"))

/-! ## Zero values (`reflect.New`, `SetZero`) -/

mutual

/-- The zero value of a type (`reflect.New(typ).Elem()`). -/
def zeroOfType : GoType → GoValue
  | .stringT => .str ""
  | .intT _ => .int 0
  | .sliceT _ => .slice []
  | .ptrT _ => .ptr none
  | .structT fs => .structV (zeroOfFields fs)
  | .customT _ => .custom []
  | .otherT _ => .str ""

def zeroOfFields : List (String × String × Bool × GoType) → List GoValue
  | [] => []
  | f :: fs => zeroOfType f.2.2.2 :: zeroOfFields fs

end

mutual

/-- `reflect.Value.SetZero`: the zero value of the same shape. -/
def zeroOfValue : GoValue → GoValue
  | .str _ => .str ""
  | .int _ => .int 0
  | .slice _ => .slice []
  | .ptr _ => .ptr none
  | .structV fs => .structV (zeroOfValues fs)
  | .custom _ => .custom []

def zeroOfValues : List GoValue → List GoValue
  | [] => []
  | v :: vs => zeroOfValue v :: zeroOfValues vs

end

/-! ## Strings: `strings.Split(tag, ",")`, `strings.Join`, `strconv` -/

/-- `strings.Split s ","` (the only split the source performs).  Splitting
the empty string yields `[""]`, so an absent tag parses as an empty name
with no options, exactly as in Go. -/
def splitComma (s : String) : List String :=
  go s.toList []
where
  go : List Char → List Char → List String
    | [], acc => [String.mk acc.reverse]
    | c :: cs, acc =>
        if c == ',' then String.mk acc.reverse :: go cs []
        else go cs (c :: acc)

/-- `strings.Join segs delim`. -/
def joinDelim (delim : String) : List String → String
  | [] => ""
  | [s] => s
  | s :: rest => s ++ delim ++ joinDelim delim rest

def isDigit (c : Char) : Bool := '0' ≤ c && c ≤ '9'

def digitsToNat : List Char → Option Nat
  | [] => some 0
  | c :: cs =>
      if isDigit c then
        match digitsToNat cs with
        | some n => some (n * 10 + (c.toNat - '0'.toNat))
        | none => none
      else none

/-- Digits read most-significant first. -/
def parseDigits (cs : List Char) : Option Nat :=
  go cs 0
where
  go : List Char → Nat → Option Nat
    | [], acc => some acc
    | c :: cs, acc =>
        if isDigit c then go cs (acc * 10 + (c.toNat - '0'.toNat))
        else none

/-- `strconv.ParseInt(s, 10, bitSize)`: optional sign, decimal digits,
range check against the signed range of `bitSize` bits. -/
def goParseInt (s : String) (bitSize : Nat) : Except GoErr Int :=
  let syntaxErr : Except GoErr Int :=
    .error (.err ("strconv.ParseInt: parsing \"" ++ s ++ "\": invalid syntax"))
  let rangeErr : Except GoErr Int :=
    .error (.err ("strconv.ParseInt: parsing \"" ++ s ++ "\": value out of range"))
  let (neg, digits) :=
    match s.toList with
    | '+' :: cs => (false, cs)
    | '-' :: cs => (true, cs)
    | cs => (false, cs)
  match digits with
  | [] => syntaxErr
  | _ =>
    match parseDigits digits with
    | none => syntaxErr
    | some n =>
      let v : Int := if neg then -(n : Int) else (n : Int)
      if v < -((2 : Int) ^ (bitSize - 1)) || v > (2 : Int) ^ (bitSize - 1) - 1 then rangeErr
      else .ok v

/-- `strconv.FormatInt(n, 10)`. -/
def goFormatInt (n : Int) : String := toString n

/-! ## Interface capability checks

`typ.Implements(valueMarshalerReflectType)` and the corresponding check on
`reflect.PointerTo(typ)`.  A `customT true` (value receiver) implements
the interface itself; a `customT false` (pointer receiver) does not, but
its pointer type does; the pointer to a custom type always implements it
(the pointer's method set contains both receiver kinds); nothing else
does.  The same predicate serves `ValueMarshaler` and `ValueUnmarshaler`:
a `customT` is understood to implement both, like `RawValue` in the
repository tests. -/
def typImplements : GoType → Bool
  | .customT valRecv => valRecv
  | .ptrT (.customT _) => true
  | _ => false

/-! ## Compile errors

`errSkipField` is a sentinel checked with `errors.Is`; every other
compilation failure carries a message. -/

inductive compileErr : Type where
  | skipField : compileErr
  | msg (s : String) : compileErr
deriving DecidableEq

/-- Wrapping with `fmt.Errorf("struct field %s: %w", name, err)`.
`errors.Is` still finds `errSkipField` through the wrap, so the sentinel
is preserved (this path is unreachable: the sentinel is only produced one
level up). -/
def wrapFieldErr (name : String) : compileErr → compileErr
  | .skipField => .skipField
  | .msg s => .msg ("struct field " ++ name ++ ": " ++ s)

def compileErrMsg : compileErr → String
  | .skipField => "skip field"
  | .msg s => s

/-! ## Marshal side: configuration (`marshal.go`) -/

structure MarshalConfig where
  Delimiter : String := ""
  KeyLookupFunc : Option (String → String) := none

/-- `MarshalConfig.delimiter`: default ".". -/
def MarshalConfig.delimiter (c : MarshalConfig) : String :=
  if c.Delimiter == "" then "." else c.Delimiter

structure marshalConfig extends MarshalConfig where
  Name : List String := []
  NamelessAnon : Bool := false
  Required : Bool := false
  OmitEmpty : Bool := false

/-- `marshalConfig.name`: join the accumulated segments with the
delimiter, then apply `KeyLookupFunc` when present. -/
def marshalConfig.name (c : marshalConfig) : String :=
  let key := joinDelim c.toMarshalConfig.delimiter c.Name
  match c.KeyLookupFunc with
  | some f => f key
  | none => key

/-- `(*marshalConfig).applyOption`. -/
def marshalConfig.applyOption (c : marshalConfig) (opt : String) : Except compileErr marshalConfig :=
  match opt with
  | "required" => .ok { c with Required := true }
  | "omitempty" => .ok { c with OmitEmpty := true }
  | "" => .ok c
  | _ => .error (.msg ("unknown option " ++ opt))

/-- The loop `for i := 1; i < len(tag); i++ { applyOption(tag[i]) }`. -/
def marshalConfig.applyOptions (c : marshalConfig) : List String → Except compileErr marshalConfig
  | [] => .ok c
  | opt :: rest => do (← c.applyOption opt).applyOptions rest

/-! ## Marshal side: compiled plans -/

structure keyMarshaler where
  key : String
  required : Bool
  omitEmpty : Bool

def newKeyMarshaler (cfg : marshalConfig) : keyMarshaler :=
  { key := cfg.name, required := cfg.Required, omitEmpty := cfg.OmitEmpty }

/-- The `marshaler` interface and its implementations, as a closed plan
tree.  `structM` holds the `fieldMarshaler` list as (index, marshaler)
pairs. -/
inductive marshaler : Type where
  | pointerM (key : String) (required : Bool) (elem : marshaler) : marshaler
  | structM (fields : List (Nat × marshaler)) : marshaler
  | stringM (k : keyMarshaler) : marshaler
  | intM (k : keyMarshaler) : marshaler
  | methodM (k : keyMarshaler) (ptrReceiver : Bool) : marshaler
  | sliceM (k : keyMarshaler) (intElem : Bool) : marshaler

abbrev fieldMarshaler := Nat × marshaler

/-! ## Marshal side: plan compilation -/

/-- `newSliceMarshaler`: dispatch on the slice element kind. -/
def newSliceMarshaler (cfg : marshalConfig) (typ : GoType) : Except compileErr marshaler :=
  match typ with
  | .sliceT .stringT => .ok (.sliceM (newKeyMarshaler cfg) false)
  | .sliceT (.intT _) => .ok (.sliceM (newKeyMarshaler cfg) true)
  | .sliceT elem => .error (.msg ("cannot marshal from slice of " ++ typeKindStr elem))
  | _ => .error (.msg ("cannot marshal from " ++ typeKindStr typ))

mutual

/-- `newValueMarshaler`: the custom-conversion capability is checked first
(value receiver, then pointer receiver, matching the `fallthrough`), then
the structural kinds. -/
def newValueMarshaler (cfg : marshalConfig) (typ : GoType) : Except compileErr marshaler :=
  if typImplements typ then
    .ok (.methodM (newKeyMarshaler cfg) false)
  else if typImplements (.ptrT typ) then
    .ok (.methodM (newKeyMarshaler cfg) true)
  else
    match typ with
    | .ptrT elem => do
        let mv ← newValueMarshaler cfg elem
        .ok (.pointerM cfg.name cfg.Required mv)
    | .structT fields =>
        if cfg.Required || cfg.OmitEmpty then
          .error (.msg "cannot set any option for struct")
        else
          let cfg := if cfg.NamelessAnon then { cfg with Name := cfg.Name.dropLast } else cfg
          newStructMarshalerFields cfg fields 0
    | .sliceT elem => newSliceMarshaler cfg (.sliceT elem)
    | .stringT => .ok (.stringM (newKeyMarshaler cfg))
    | .intT _ => .ok (.intM (newKeyMarshaler cfg))
    | _ => .error (.msg ("cannot marshal from " ++ typeKindStr typ))

/-- `newFieldMarshaler`: tag parsing, skip convention, name-prefix push,
option application, `required`/`omitempty` conflict check, then the value
marshaler for the field type.  `idx` is `structFld.Index[len-1]`. -/
def newFieldMarshaler (cfg : marshalConfig) (structFld : GoField) (idx : Nat) :
    Except compileErr fieldMarshaler :=
  let tag := splitComma (fldTag structFld)
  let name := tag.headD ""
  if name == "-" && tag.length == 1 then
    .error .skipField
  else
    let namelessAnon := name == "" && fldAnon structFld
    let name := if name == "" then fldName structFld else name
    let fieldCfg : marshalConfig :=
      { toMarshalConfig := cfg.toMarshalConfig
        Name := cfg.Name ++ [name]
        NamelessAnon := namelessAnon }
    match fieldCfg.applyOptions tag.tail with
    | .error e => .error e
    | .ok fieldCfg =>
      if fieldCfg.Required && fieldCfg.OmitEmpty then
        .error (.msg "a field cannot be set as both required and omitempty")
      else
        match newValueMarshaler fieldCfg (fldType structFld) with
        | .error e => .error (wrapFieldErr (fldName structFld) e)
        | .ok vm => .ok (idx, vm)

/-- The field loop of `newStructMarshaler`: compile each field in
declaration order, skipping `errSkipField` fields, aborting on the first
real error. -/
def newStructMarshalerFields (cfg : marshalConfig) (fields : List GoField) (idx : Nat) :
    Except compileErr marshaler :=
  match fields with
  | [] => .ok (.structM [])
  | fld :: rest =>
      match newFieldMarshaler cfg fld idx with
      | .error .skipField =>
          newStructMarshalerFields cfg rest (idx + 1)
      | .error e => .error e
      | .ok fm =>
          match newStructMarshalerFields cfg rest (idx + 1) with
          | .error e => .error e
          | .ok (.structM fms) => .ok (.structM (fm :: fms))
          | .ok m => .ok m

end

/-- `newStructMarshaler`. -/
def newStructMarshaler (cfg : marshalConfig) (fields : List GoField) : Except compileErr marshaler :=
  newStructMarshalerFields cfg fields 0

/-- `newMarshaler`: the top-level dispatch (struct or pointer only). -/
def newMarshaler (cfg : marshalConfig) (typ : GoType) : Except compileErr marshaler :=
  match typ with
  | .structT fields => newStructMarshaler cfg fields
  | .ptrT elem =>
      match newMarshaler cfg elem with
      | .error e => .error e
      | .ok m => .ok (.pointerM "" true m)
  | _ => .error (.msg ("cannot marshal from " ++ typeKindStr typ))

/-! ## Marshal side: plan execution

`marshalGo plan src addr v` runs `plan.marshal(src, v)` where `addr` is
`src.CanAddr()` (the top-level entry passes a `reflect.ValueOf` result,
which is not addressable; `Field` preserves addressability).  Note that
`pointerMarshaler.marshal` hands `src` — the pointer itself, not
`src.Elem()` — to the element marshaler, exactly as the source does. -/

def errMissingValue : String := "missing required value"

mutual

def marshalGo (m : marshaler) (src : GoValue) (addr : Bool) (v : Mapping) :
    Except GoErr Mapping :=
  match m with
  | .pointerM key required elem => do
      if !(← goIsNil src) then
        marshalGo elem src addr v
      else if required then
        if key == "" then .error (.err errMissingValue)
        else .error (.err ("key " ++ key ++ ": " ++ errMissingValue))
      else
        .ok v
  | .structM fields => marshalFieldsGo fields src addr v
  | .stringM k =>
      let val := goStringVal src
      if val == "" && k.required then
        .error (.err ("key " ++ k.key ++ ": " ++ errMissingValue))
      else if val == "" && k.omitEmpty then
        .ok v
      else
        .ok (mapSet v k.key [val])
  | .intM k => do
      let val ← goIntVal src
      if val == 0 && k.required then
        .error (.err ("key " ++ k.key ++ ": " ++ errMissingValue))
      else if val == 0 && k.omitEmpty then
        .ok v
      else
        .ok (mapSet v k.key [goFormatInt val])
  | .methodM k ptrReceiver => do
      if ptrReceiver && !addr then
        .error (.err "unable to call MarshalValue to an unadressable value")
      else
        match src with
        | .custom payload =>
            if payload.isEmpty && k.required then
              .error (.err ("key " ++ k.key ++ ": " ++ errMissingValue))
            else if payload.isEmpty && k.omitEmpty then
              .ok v
            else
              .ok (mapSet v k.key payload)
        | _ => .error (.panic "interface conversion: value is not a ValueMarshaler")
  | .sliceM k intElem => do
      let n ← goLenVal src
      if n == 0 && k.required then
        .error (.err ("key " ++ k.key ++ ": " ++ errMissingValue))
      else if n == 0 && k.omitEmpty then
        .ok v
      else
        match src with
        | .slice elems => do
            let out ← marshalSliceElems elems intElem
            .ok (mapSet v k.key out)
        | _ => .error (.panic ("reflect: call of reflect.Value.Index on " ++ kindStr src ++ " Value"))

def marshalFieldsGo (fields : List fieldMarshaler) (src : GoValue) (addr : Bool) (v : Mapping) :
    Except GoErr Mapping :=
  match fields with
  | [] => .ok v
  | (idx, fm) :: rest => do
      let fv ← goField src idx
      let v' ← marshalGo fm fv addr v
      marshalFieldsGo rest src addr v'

/-- The element loop of `sliceMarshaler.marshal`: format each element. -/
def marshalSliceElems (elems : List GoValue) (intElem : Bool) : Except GoErr (List String) :=
  match elems with
  | [] => .ok []
  | e :: rest => do
      let val ←
        if intElem then do
          .ok (goFormatInt (← goIntVal e))
        else
          .ok (goStringVal e)
      let out ← marshalSliceElems rest intElem
      .ok (val :: out)

end

/-- `Marshaler.Marshal`: the source first rejects a nil destination map
(modelled as `none`), then resolves the plan through the cache (which is
semantically transparent: `cache.Get` on a miss returns exactly the
compile result, see `cacheGet` below) and executes it on the
non-addressable `reflect.ValueOf(src)`.  `srcType` stands for
`reflect.ValueOf(src).Type()`. -/
def MarshalerMarshal (config : MarshalConfig) (srcType : GoType) (src : GoValue)
    (v : Option Mapping) : Except GoErr Mapping :=
  match v with
  | none => .error (.err "cannot marshal into a nil map")
  | some v =>
    match newMarshaler { toMarshalConfig := config } srcType with
    | .error e => .error (.err (compileErrMsg e))
    | .ok vm => marshalGo vm src false v

/-! ## Unmarshal side: configuration (`unmarshal.go`) -/

structure UnmarshalConfig where
  Delimiter : String := ""

/-- `UnmarshalConfig.delimiter`: default ".". -/
def UnmarshalConfig.delimiter (c : UnmarshalConfig) : String :=
  if c.Delimiter == "" then "." else c.Delimiter

structure unmarshalConfig extends UnmarshalConfig where
  Prefix : List String := []

/-! ## Unmarshal side: compiled plans -/

/-- `buildNewFunc`: the lazy-allocation step recorded for pointer (and
map) destinations; `some elem` means "allocate a fresh zero `elem` when
the destination pointer is nil", `none` means no allocation step.  No
map-kind field type exists in the embedding's type universe, so only the
pointer arm is represented. -/
def buildNewFunc : GoType → Option GoType
  | .ptrT elem => some elem
  | _ => none

/-- `getIntSize`: the declared integer bit width, or -1.  The embedding
records the width in `intT` directly (platform `int` is 64-bit). -/
def getIntSize : GoType → Int
  | .intT bits => (bits : Int)
  | _ => -1

/-- The `unmarshaler` interface and its implementations.  `structU` holds
the `fieldUnmarshaler` list as (name, required, nested, index, plan)
tuples; the name of a nested field stays empty, as in the source. -/
inductive unmarshaler : Type where
  | pointerU (elemTyp : GoType) (elem : unmarshaler) : unmarshaler
  | structU (fields : List (String × Bool × Bool × Nat × unmarshaler)) : unmarshaler
  | stringU : unmarshaler
  | intU (bitSize : Nat) : unmarshaler
  | methodU (newFn : Option GoType) (ptrReceiver : Bool) : unmarshaler
  | sliceU (typ : GoType) (bitSize : Nat) : unmarshaler

abbrev fieldUnmarshaler := String × Bool × Bool × Nat × unmarshaler

def fuName (f : fieldUnmarshaler) : String := f.1
def fuRequired (f : fieldUnmarshaler) : Bool := f.2.1
def fuNested (f : fieldUnmarshaler) : Bool := f.2.2.1
def fuIndex (f : fieldUnmarshaler) : Nat := f.2.2.2.1
def fuPlan (f : fieldUnmarshaler) : unmarshaler := f.2.2.2.2

/-- `(*fieldUnmarshaler).applyOption`: `required` is recorded,
`omitempty` is deliberately ignored ("only valid for marshaler"), the
empty option is allowed, anything else is an unknown-option error.  The
result is the updated required flag. -/
def fieldApplyOption (required : Bool) (opt : String) : Except compileErr Bool :=
  match opt with
  | "required" => .ok true
  | "omitempty" => .ok required
  | "" => .ok required
  | _ => .error (.msg ("unknown option " ++ opt))

def fieldApplyOptions (required : Bool) : List String → Except compileErr Bool
  | [] => .ok required
  | opt :: rest => do fieldApplyOptions (← fieldApplyOption required opt) rest

/-! ## Unmarshal side: plan compilation -/

/-- `newSliceUnmarshaler`: string slices get bit size 0, integer slices
their element width. -/
def newSliceUnmarshaler (typ : GoType) : Except compileErr unmarshaler :=
  match typ with
  | .sliceT .stringT => .ok (.sliceU typ 0)
  | .sliceT (.intT bits) => .ok (.sliceU typ bits)
  | .sliceT elem => .error (.msg ("cannot unmarshal into slice of " ++ typeKindStr elem))
  | _ => .error (.msg ("cannot unmarshal into " ++ typeKindStr typ))

mutual

/-- `newValueUnmarshaler`: capability check first (value receiver, then
pointer receiver, via `fallthrough`), then kinds; returns the plan and
the nested flag. -/
def newValueUnmarshaler (cfg : unmarshalConfig) (typ : GoType) :
    Except compileErr (unmarshaler × Bool) :=
  if typImplements typ then
    .ok (.methodU (buildNewFunc typ) false, false)
  else if typImplements (.ptrT typ) then
    .ok (.methodU (buildNewFunc typ) true, false)
  else
    match typ with
    | .ptrT elem =>
        match newValueUnmarshaler cfg elem with
        | .error e => .error e
        | .ok (unm, nested) => .ok (.pointerU elem unm, nested)
    | .structT fields =>
        match newStructUnmarshalerFields cfg fields 0 with
        | .error e => .error e
        | .ok unm => .ok (unm, true)
    | .stringT => .ok (.stringU, false)
    | .sliceT elem =>
        match newSliceUnmarshaler (.sliceT elem) with
        | .error e => .error e
        | .ok unm => .ok (unm, false)
    | .intT bits => .ok (.intU bits, false)
    | _ => .error (.msg ("cannot unmarshal into " ++ typeKindStr typ))

/-- `newFieldUnmarshaler`: tag parsing and skip convention, option
application, prefix push (explicit name, else declared name unless
anonymous), compilation of the field type, the required-on-struct check
for nested fields, and the anonymous-fallback name push for non-nested
fields. -/
def newFieldUnmarshaler (cfg : unmarshalConfig) (structFld : GoField) (idx : Nat) :
    Except compileErr fieldUnmarshaler :=
  let tag := splitComma (fldTag structFld)
  let name := tag.headD ""
  if name == "-" && tag.length == 1 then
    .error .skipField
  else
    match fieldApplyOptions false tag.tail with
    | .error e => .error e
    | .ok required =>
      let pfx :=
        if name != "" then cfg.Prefix ++ [name]
        else if !(fldAnon structFld) then cfg.Prefix ++ [fldName structFld]
        else cfg.Prefix
      match newValueUnmarshaler { toUnmarshalConfig := cfg.toUnmarshalConfig, Prefix := pfx }
          (fldType structFld) with
      | .error e => .error (wrapFieldErr (fldName structFld) e)
      | .ok (unm, nested) =>
        if nested then
          if required then
            .error (.msg "cannot set required option for struct")
          else
            .ok ("", false, true, idx, unm)
        else
          let pfx :=
            if fldAnon structFld && name == "" then pfx ++ [fldName structFld] else pfx
          .ok (joinDelim cfg.toUnmarshalConfig.delimiter pfx, required, false, idx, unm)

/-- The field loop of `newStructUnmarshaler`. -/
def newStructUnmarshalerFields (cfg : unmarshalConfig) (fields : List GoField) (idx : Nat) :
    Except compileErr unmarshaler :=
  match fields with
  | [] => .ok (.structU [])
  | fld :: rest =>
      match newFieldUnmarshaler cfg fld idx with
      | .error .skipField => newStructUnmarshalerFields cfg rest (idx + 1)
      | .error e => .error e
      | .ok fu =>
          match newStructUnmarshalerFields cfg rest (idx + 1) with
          | .error e => .error e
          | .ok (.structU fus) => .ok (.structU (fu :: fus))
          | .ok u => .ok u

end

/-- `newStructUnmarshaler`. -/
def newStructUnmarshaler (cfg : unmarshalConfig) (fields : List GoField) :
    Except compileErr unmarshaler :=
  newStructUnmarshalerFields cfg fields 0

/-- `newUnmarshaler`: top-level dispatch (struct or pointer only). -/
def newUnmarshaler (cfg : unmarshalConfig) (typ : GoType) : Except compileErr unmarshaler :=
  match typ with
  | .structT fields => newStructUnmarshaler cfg fields
  | .ptrT elem =>
      match newUnmarshaler cfg elem with
      | .error e => .error e
      | .ok u => .ok (.pointerU elem u)
  | _ => .error (.msg ("cannot unmarshal into " ++ typeKindStr typ))

/-! ## Unmarshal side: plan execution

The Go executor mutates `dst` through reflection; the embedding passes
the destination value in and returns the updated value.  `ctx` is
`unmarshalContext.value`. -/

/-- `getValue`: a present key with an empty value sequence counts as
absent. -/
def getValue (v : Mapping) (key : String) : Option (List String) :=
  match mapGet v key with
  | none => none
  | some val => if val.isEmpty then none else some val

/-- The effect of `UnmarshalValue` on the destination (after the lazy
`newFn` allocation and optional addressing): store the value sequence in
the custom value, writing through a pointer when the destination is one. -/
def setCustomValue (dst : GoValue) (val : List String) : Except GoErr GoValue :=
  match dst with
  | .custom _ => .ok (.custom val)
  | .ptr (some inner) =>
      match setCustomValue inner val with
      | .error e => .error e
      | .ok inner' => .ok (.ptr (some inner'))
  | .ptr none => .error (.panic "runtime error: invalid memory address or nil pointer dereference")
  | v => .error (.panic ("interface conversion: " ++ kindStr v ++ " is not a ValueUnmarshaler"))

mutual

def unmarshalGo (u : unmarshaler) (ctx : List String) (v : Mapping) (dst : GoValue) :
    Except GoErr GoValue :=
  match u with
  | .pointerU elemTyp elem =>
      match dst with
      | .ptr pointee =>
          let inner := match pointee with | some x => x | none => zeroOfType elemTyp
          (match unmarshalGo elem ctx v inner with
           | .error e => .error e
           | .ok inner' => .ok (.ptr (some inner')))
      | _ => .error (.panic ("reflect: call of reflect.Value.IsNil on " ++ kindStr dst ++ " Value"))
  | .structU fields => unmarshalStructGo fields ctx v dst
  | .stringU =>
      match ctx with
      | val0 :: _ =>
          (match dst with
           | .str _ => .ok (.str val0)
           | _ => .error (.panic ("reflect: call of reflect.Value.SetString on " ++ kindStr dst ++ " Value")))
      | [] => .error (.panic "runtime error: index out of range [0] with length 0")
  | .intU bitSize =>
      match ctx with
      | val0 :: _ =>
          (match goParseInt val0 bitSize with
           | .error e => .error e
           | .ok n =>
             match dst with
             | .int _ => .ok (.int n)
             | _ => .error (.panic ("reflect: call of reflect.Value.SetInt on " ++ kindStr dst ++ " Value")))
      | [] => .error (.panic "runtime error: index out of range [0] with length 0")
  | .methodU newFn ptrReceiver =>
      let dst :=
        match newFn, dst with
        | some elemTyp, .ptr none => .ptr (some (zeroOfType elemTyp))
        | _, _ => dst
      -- `ptrReceiver` only affects how the method is reached
      -- (`dst.Addr()`); the destination written through is the same.
      let _ := ptrReceiver
      setCustomValue dst ctx
  | .sliceU typ bitSize =>
      -- Destination storage is resized to exactly the input length; the
      -- capacity-reuse branches of the source are allocation details with
      -- the same observable result.
      let _ := typ
      if bitSize == 0 then
        match dst with
        | .slice _ => .ok (.slice (ctx.map GoValue.str))
        | _ => .error (.panic ("reflect: call of reflect.Value.SetLen on " ++ kindStr dst ++ " Value"))
      else
        match dst with
        | .slice _ =>
            (match unmarshalIntSlice ctx bitSize 0 with
             | .error e => .error e
             | .ok elems => .ok (.slice elems))
        | _ => .error (.panic ("reflect: call of reflect.Value.SetLen on " ++ kindStr dst ++ " Value"))

/-- The element loop of `sliceUnmarshaler.unmarshal` for integer
elements: a parse failure names the offending index. -/
def unmarshalIntSlice (vals : List String) (bitSize : Nat) (i : Nat) :
    Except GoErr (List GoValue) :=
  match vals with
  | [] => .ok []
  | val :: rest =>
      match goParseInt val bitSize with
      | .error e =>
          (match e with
           | .err msg => .error (.err ("int slice index #" ++ toString i ++ ": " ++ msg))
           | e => .error e)
      | .ok n =>
          match unmarshalIntSlice rest bitSize (i + 1) with
          | .error e => .error e
          | .ok elems => .ok (.int n :: elems)

/-- `structUnmarshaler.unmarshalField` for one field, then
`structUnmarshaler.unmarshal` looping over the fields. -/
def unmarshalFieldGo (field : fieldUnmarshaler) (ctx : List String) (v : Mapping)
    (dst : GoValue) : Except GoErr GoValue :=
  if !(fuNested field) then
    match getValue v (fuName field) with
    | none =>
        if fuRequired field then
          .error (.err ("value not found for required key \"" ++ fuName field ++ "\""))
        else
          match goField dst (fuIndex field) with
          | .error e => .error e
          | .ok cur => goSetField dst (fuIndex field) (zeroOfValue cur)
    | some val =>
        match goField dst (fuIndex field) with
        | .error e => .error e
        | .ok cur =>
            match unmarshalGo (fuPlan field) val v cur with
            | .error e => .error e
            | .ok cur' => goSetField dst (fuIndex field) cur'
  else
    match goField dst (fuIndex field) with
    | .error e => .error e
    | .ok cur =>
        match unmarshalGo (fuPlan field) ctx v cur with
        | .error e => .error e
        | .ok cur' => goSetField dst (fuIndex field) cur'

def unmarshalStructGo (fields : List fieldUnmarshaler) (ctx : List String) (v : Mapping)
    (dst : GoValue) : Except GoErr GoValue :=
  match fields with
  | [] => .ok dst
  | field :: rest =>
      match unmarshalFieldGo field ctx v dst with
      | .error e => .error e
      | .ok dst' => unmarshalStructGo rest ctx v dst'

end

/-- `unmarshalerCache.Unmarshal`: the destination must be a non-nil
pointer; the plan for the pointee type is resolved (through the
transparent cache) and executed against the pointee.  `dstType` stands
for `reflect.ValueOf(dst).Type()`. -/
def UnmarshalerUnmarshal (cfg : UnmarshalConfig) (v : Mapping) (dstType : GoType)
    (dst : GoValue) : Except GoErr GoValue :=
  match dstType, dst with
  | .ptrT elemTyp, .ptr (some elem) =>
      (match newUnmarshaler { toUnmarshalConfig := cfg } elemTyp with
       | .error e => .error (.err (compileErrMsg e))
       | .ok vu =>
         match unmarshalGo vu [] v elem with
         | .error e => .error e
         | .ok elem' => .ok (.ptr (some elem')))
  | _, _ => .error (.err "can only unmarshal into a non-nil pointer")

/-- `Unmarshal`: the package-level entry with the zero configuration. -/
def Unmarshal (v : Mapping) (dstType : GoType) (dst : GoValue) : Except GoErr GoValue :=
  UnmarshalerUnmarshal {} v dstType dst

/-! ## The plan cache (`cache.go`)

Single-threaded rendering of `cache[K, V]`: the `RWMutex` sections
collapse, and `Get`'s read-path lookup and `getSync`'s re-check coincide.
The store is an association list standing for the Go map (`nil` map and
empty map read identically). -/

def storGet {K V : Type} [BEq K] (stor : List (K × V)) (key : K) : Option V :=
  match stor with
  | [] => none
  | (k, v) :: rest => if k == key then some v else storGet rest key

def storSet {K V : Type} [BEq K] (stor : List (K × V)) (key : K) (val : V) : List (K × V) :=
  match stor with
  | [] => [(key, val)]
  | (k, v) :: rest => if k == key then (key, val) :: rest else (k, v) :: storSet rest key val

/-- `cache.getSync`: re-check under the exclusive lock, invoke the getter
on a miss, store only a successful result. -/
def getSync {K V : Type} [BEq K] (stor : List (K × V)) (key : K)
    (getter : K → Except String V) : Except String V × List (K × V) :=
  match storGet stor key with
  | some val => (.ok val, stor)
  | none =>
      match getter key with
      | .error e => (.error e, stor)
      | .ok val => (.ok val, storSet stor key val)

/-- `cache.Get`: shared-lock lookup, falling back to `getSync`. -/
def cacheGet {K V : Type} [BEq K] (stor : List (K × V)) (key : K)
    (getter : K → Except String V) : Except String V × List (K × V) :=
  match storGet stor key with
  | some val => (.ok val, stor)
  | none => getSync stor key getter

/-! ## Concrete types used by the theorems -/

/-- The struct of `TestMarshal`/`TestUnmarshal` `WithFieldNames`:
`Ignored string `map:"-"``, `NotIgnored string `map:"-,"``,
`Message string `map:"message"``. -/
def testStructType : GoType :=
  .structT
    [("Ignored", "-", false, .stringT),
     ("NotIgnored", "-,", false, .stringT),
     ("Message", "message", false, .stringT)]

/-- A header-style struct: `ContentType string `map:"content-type"``. -/
def headerStructType : GoType :=
  .structT [("ContentType", "content-type", false, .stringT)]

/-- A struct with a pointer-to-int field: `P *int `map:"p"``. -/
def ptrFieldStructType : GoType :=
  .structT [("P", "p", false, .ptrT (.intT 64))]

/-! # Theorems -/

/-- Claim C1 (status: code bug).  The round-trip property fails as soon as a
record contains a pointer field, because `pointerMarshaler.marshal` hands
the pointer value itself — not `src.Elem()` — to the element marshaler
compiled for the pointee type.  At the struct with one field `P` of type pointer-to-int tagged name "p" with
`P` pointing at 5, marshaling panics (`reflect.Value.Int` is called on a
`ptr` value); the unmarshal direction, whose `pointerUnmarshaler` does
dereference (`dst.Elem()`), round-trips the mapping `{"p": ["5"]}` into
the pointer field perfectly well, as the second conjunct shows. -/
theorem C1_roundtrip_fails_on_pointer_field :
    MarshalerMarshal {} ptrFieldStructType (.structV [.ptr (some (.int 5))]) (some []) =
      .error (.panic "reflect: call of reflect.Value.Int on ptr Value") ∧
    UnmarshalerUnmarshal {} [("p", ["5"])] (.ptrT ptrFieldStructType)
        (.ptr (some (.structV [.ptr none]))) =
      .ok (.ptr (some (.structV [.ptr (some (.int 5))]))) :=
  ⟨rfl, rfl⟩

/-- Claim C2 (counterexample).  The claim says plan compilation fails in the
unmarshal direction as well; it does not: `fieldUnmarshaler.applyOption`
silently ignores `omitempty`, so the struct of the repository's own test
(`LastName string \x60map:",required,omitempty"\x60`) compiles into a plan
whose field is simply marked required. -/
theorem C2_unmarshal_accepts_required_omitempty :
    newStructUnmarshaler {} [("LastName", ",required,omitempty", false, .stringT)] =
      .ok (.structU [("LastName", true, false, 0, .stringU)]) :=
  rfl

/-- Claim C2 (amended).  A field tagged with both `required` and `omitempty`
(in either order) fails plan compilation in the marshal direction with the
conflict error, for every configuration, field name, anonymity and field
type; the unmarshal direction instead accepts the combination, ignoring
`omitempty` and treating the field as required. -/
theorem C2_required_omitempty_conflict :
    (∀ (cfg : marshalConfig) (fname : String) (anon : Bool) (typ : GoType) (idx : Nat),
      newFieldMarshaler cfg (fname, ",required,omitempty", anon, typ) idx =
        .error (.msg "a field cannot be set as both required and omitempty") ∧
      newFieldMarshaler cfg (fname, ",omitempty,required", anon, typ) idx =
        .error (.msg "a field cannot be set as both required and omitempty")) ∧
    (∀ (cfg : unmarshalConfig) (fname : String) (anon : Bool) (idx : Nat),
      newFieldUnmarshaler cfg (fname, ",required,omitempty", anon, .stringT) idx =
        .ok (joinDelim cfg.toUnmarshalConfig.delimiter (cfg.Prefix ++ [fname]),
             true, false, idx, .stringU)) := by
  refine ⟨fun cfg fname anon typ idx => ⟨?_, ?_⟩, fun cfg fname anon idx => ?_⟩ <;>
    · simp only [newFieldMarshaler, newFieldUnmarshaler, fldTag, fldName, fldAnon, fldType]
      cases anon <;> rfl

/-- Claim C3 (counterexample).  `MarshalConfig` carries a key-transform hook
(`KeyLookupFunc`) but `UnmarshalConfig` does not, so the two directions do
not consume the same configuration shape: marshaling with a transform
writes the transformed key, while `Unmarshal` — whose configuration can
only pick a delimiter — looks the raw composed key up verbatim and leaves
the field untouched at its zero value. -/
theorem C3_no_key_transform_on_unmarshal :
    MarshalerMarshal { KeyLookupFunc := some (fun s => "X-" ++ s) } headerStructType
        (.structV [.str "json"]) (some []) =
      .ok [("X-content-type", ["json"])] ∧
    UnmarshalerUnmarshal {} [("X-content-type", ["json"])] (.ptrT headerStructType)
        (.ptr (some (.structV [.str ""]))) =
      .ok (.ptr (some (.structV [.str ""]))) :=
  ⟨rfl, rfl⟩

/-- Claim C3 (amended).  The unmarshal configuration consists of a delimiter
only — every `UnmarshalConfig` is exactly its `Delimiter` field — and the
compiled lookup key is the plain composed key, with no transform applied,
whatever the configuration. -/
theorem C3_unmarshal_config_is_delimiter_only :
    ∀ (c : UnmarshalConfig),
      c = { Delimiter := c.Delimiter } ∧
      newUnmarshaler { toUnmarshalConfig := c } headerStructType =
        .ok (.structU [("content-type", false, false, 0, .stringU)]) :=
  fun _ => ⟨rfl, rfl⟩

/-- Claim C9 (confirmed).  A leaf with neither `required` nor `omitempty`
writes its zero value: the empty string as the one-element sequence
`[""]`, the zero integer as `["0"]`, the empty slice as an empty value
sequence — in each case by overwriting whatever sequence the destination
mapping already held under the key (`mapSet`), as the final conjunct makes
explicit.  The last conjunct shows the compiler produces exactly such a
plan for an untagged string field. -/
theorem C9_zero_leaf_without_options_still_writes :
    ∀ (key : String) (m : Mapping) (addr : Bool),
      marshalGo (.stringM { key := key, required := false, omitEmpty := false })
          (.str "") addr m = .ok (mapSet m key [""]) ∧
      marshalGo (.intM { key := key, required := false, omitEmpty := false })
          (.int 0) addr m = .ok (mapSet m key ["0"]) ∧
      marshalGo (.sliceM { key := key, required := false, omitEmpty := false } false)
          (.slice []) addr m = .ok (mapSet m key []) ∧
      marshalGo (.sliceM { key := key, required := false, omitEmpty := false } true)
          (.slice []) addr m = .ok (mapSet m key []) ∧
      (∀ (xs : List String), mapGet (mapSet m key xs) key = some xs) := by
  intro key m addr
  refine ⟨rfl, rfl, rfl, rfl, fun xs => ?_⟩
  induction m with
  | nil => simp [mapSet, mapGet]
  | cons kv rest ih =>
      by_cases h : kv.1 == key
      · simp [mapSet, mapGet, h]
      · simp only [mapSet, mapGet, h]
        simpa [mapGet, h] using ih

/-- Claim C10 (confirmed).  Marshaling a record by value when a field's type
implements `MarshalValue` only on its pointer receiver fails with the
addressability error: the compiled plan is a `methodMarshaler` with
`ptrReceiver` set, and `reflect.ValueOf(src)` is not addressable, so
`src.CanAddr()` is false at the field.  This holds for every
configuration, field name, field value and destination mapping. -/
theorem C10_pointer_receiver_value_marshal_unaddressable :
    ∀ (config : MarshalConfig) (fname : String) (x : GoValue) (m : Mapping),
      MarshalerMarshal config (.structT [(fname, "", false, .customT false)])
          (.structV [x]) (some m) =
        .error (.err "unable to call MarshalValue to an unadressable value") :=
  fun _ _ _ _ => rfl

/-- Claim C6 (confirmed).  An anonymous embedded field with no explicit
tag name contributes no path segment of its own when its kind is a
record: the marshal compiler pushes the declared field name and then pops
it again in the struct arm (`NamelessAnon`), so the children are compiled
with `Name` equal to the parent's prefix, and the unmarshal compiler
never pushes a segment for it (conjuncts 1–2).  When the anonymous
field's resolved kind is not a record — a custom-convertible type of
either receiver kind, or a plain string — its declared field name is used
as the key, composed onto the parent's prefix (conjuncts 3–6). -/
theorem C6_anonymous_embedded_record_no_extra_segment :
    (∀ (cfg : marshalConfig) (fname : String) (fs : List GoField) (idx : Nat),
      newFieldMarshaler cfg (fname, "", true, .structT fs) idx =
        match newStructMarshaler
            { toMarshalConfig := cfg.toMarshalConfig, Name := cfg.Name, NamelessAnon := true } fs with
        | .error e => .error (wrapFieldErr fname e)
        | .ok vm => .ok (idx, vm)) ∧
    (∀ (cfg : unmarshalConfig) (fname : String) (fs : List GoField) (idx : Nat),
      newFieldUnmarshaler cfg (fname, "", true, .structT fs) idx =
        match newStructUnmarshaler cfg fs with
        | .error e => .error (wrapFieldErr fname e)
        | .ok unm => .ok ("", false, true, idx, unm)) ∧
    (∀ (D : String) (Nm : List String) (fname : String) (vr : Bool) (idx : Nat),
      newFieldMarshaler { toMarshalConfig := { Delimiter := D }, Name := Nm }
          (fname, "", true, .customT vr) idx =
        .ok (idx, .methodM
          { key := joinDelim (if D == "" then "." else D) (Nm ++ [fname]),
            required := false, omitEmpty := false } (!vr))) ∧
    (∀ (D : String) (Nm : List String) (fname : String) (idx : Nat),
      newFieldMarshaler { toMarshalConfig := { Delimiter := D }, Name := Nm }
          (fname, "", true, .stringT) idx =
        .ok (idx, .stringM
          { key := joinDelim (if D == "" then "." else D) (Nm ++ [fname]),
            required := false, omitEmpty := false })) ∧
    (∀ (D : String) (pfx : List String) (fname : String) (vr : Bool) (idx : Nat),
      newFieldUnmarshaler { toUnmarshalConfig := { Delimiter := D }, Prefix := pfx }
          (fname, "", true, .customT vr) idx =
        .ok (joinDelim (if D == "" then "." else D) (pfx ++ [fname]),
             false, false, idx, .methodU none (!vr))) ∧
    (∀ (D : String) (pfx : List String) (fname : String) (idx : Nat),
      newFieldUnmarshaler { toUnmarshalConfig := { Delimiter := D }, Prefix := pfx }
          (fname, "", true, .stringT) idx =
        .ok (joinDelim (if D == "" then "." else D) (pfx ++ [fname]),
             false, false, idx, .stringU)) := by
  refine ⟨fun cfg fname fs idx => ?_, fun cfg fname fs idx => ?_,
          fun D Nm fname vr idx => ?_, fun D Nm fname idx => ?_,
          fun D pfx fname vr idx => ?_, fun D pfx fname idx => ?_⟩
  · simp only [newFieldMarshaler, newValueMarshaler, fldTag, fldName, fldAnon, fldType,
      newStructMarshaler, typImplements]
    simp [splitComma, splitComma.go, marshalConfig.applyOptions, List.dropLast_concat,
      MarshalConfig.delimiter, marshalConfig.name]
  · obtain ⟨base, pfx⟩ := cfg
    simp only [newFieldUnmarshaler, newValueUnmarshaler, fldTag, fldName, fldAnon, fldType,
      newStructUnmarshaler, typImplements]
    simp only [splitComma, splitComma.go, fieldApplyOptions]
    cases h : newStructUnmarshalerFields ⟨base, pfx⟩ fs 0 <;> simp [h]
  · cases vr <;> rfl
  · rfl
  · cases vr <;> rfl
  · rfl

/-- Claim C7 (confirmed).  A tag of exactly `-` marks the field skipped in
both compilers (conjuncts 1–2 yield the `errSkipField` sentinel for every
field name, anonymity and type), and a skipped field contributes nothing
to the compiled struct plan while the indices of the following fields are
preserved (conjuncts 3–4), so it is never written or read under any key.
A tag of `-,` instead makes `-` an ordinary explicit name, composed onto
the prefix like any other (conjuncts 5–6; at the top level with the
default configuration the key is the literal `-`).  The final conjuncts
replay the repository's `WithFieldNames` tests end to end: the skipped
field's value never reaches the mapping and its destination field is left
untouched, while the `-,` field travels under the literal key `-`. -/
theorem C7_dash_tag_skips_and_dash_comma_is_literal :
    (∀ (cfg : marshalConfig) (fname : String) (anon : Bool) (typ : GoType) (idx : Nat),
      newFieldMarshaler cfg (fname, "-", anon, typ) idx = .error .skipField) ∧
    (∀ (cfg : unmarshalConfig) (fname : String) (anon : Bool) (typ : GoType) (idx : Nat),
      newFieldUnmarshaler cfg (fname, "-", anon, typ) idx = .error .skipField) ∧
    (∀ (cfg : marshalConfig) (fname : String) (anon : Bool) (typ : GoType)
        (rest : List GoField) (idx : Nat),
      newStructMarshalerFields cfg ((fname, "-", anon, typ) :: rest) idx =
        newStructMarshalerFields cfg rest (idx + 1)) ∧
    (∀ (cfg : unmarshalConfig) (fname : String) (anon : Bool) (typ : GoType)
        (rest : List GoField) (idx : Nat),
      newStructUnmarshalerFields cfg ((fname, "-", anon, typ) :: rest) idx =
        newStructUnmarshalerFields cfg rest (idx + 1)) ∧
    (∀ (D : String) (Nm : List String) (fname : String) (anon : Bool) (idx : Nat),
      newFieldMarshaler { toMarshalConfig := { Delimiter := D }, Name := Nm }
          (fname, "-,", anon, .stringT) idx =
        .ok (idx, .stringM
          { key := joinDelim (if D == "" then "." else D) (Nm ++ ["-"]),
            required := false, omitEmpty := false })) ∧
    (∀ (D : String) (pfx : List String) (fname : String) (anon : Bool) (idx : Nat),
      newFieldUnmarshaler { toUnmarshalConfig := { Delimiter := D }, Prefix := pfx }
          (fname, "-,", anon, .stringT) idx =
        .ok (joinDelim (if D == "" then "." else D) (pfx ++ ["-"]),
             false, false, idx, .stringU)) ∧
    MarshalerMarshal {} testStructType
        (.structV [.str "valueHere", .str "valueThere", .str "itsHere"]) (some []) =
      .ok [("-", ["valueThere"]), ("message", ["itsHere"])] ∧
    UnmarshalerUnmarshal {}
        [("Ignored", ["valueThere"]), ("-", ["valueThere"]),
         ("Message", ["itsThere"]), ("message", ["itsHere"])]
        (.ptrT testStructType)
        (.ptr (some (.structV [.str "valueHere", .str "valueHere", .str ""]))) =
      .ok (.ptr (some (.structV [.str "valueHere", .str "valueThere", .str "itsHere"]))) := by
  refine ⟨fun cfg fname anon typ idx => rfl, fun cfg fname anon typ idx => rfl,
          fun cfg fname anon typ rest idx => ?_, fun cfg fname anon typ rest idx => ?_,
          fun D Nm fname anon idx => ?_, fun D pfx fname anon idx => ?_, rfl, rfl⟩
  · simp only [newStructMarshalerFields, newFieldMarshaler, fldTag]
    rfl
  · simp only [newStructUnmarshalerFields, newFieldUnmarshaler, fldTag]
    rfl
  · cases anon <;> rfl
  · cases anon <;> rfl

/-- The fully composed key of a leaf field: the accumulated prefix plus
the field's own segment, joined with the configured delimiter (default
"."). -/
def leafKey (delim : String) (pfx : List String) (seg : String) : String :=
  joinDelim (if delim == "" then "." else delim) (pfx ++ [seg])

/-- Claim C4 (confirmed).  For every leaf field tagged `required` — any
delimiter, prefix, field name, explicit tag name (or none), anonymity and
leaf kind (string, any-width integer, string slice, integer slice) — the
compiled marshal and unmarshal plans agree on the composed key `K`:
marshaling the leaf's zero value fails with the missing-value error
naming `K`, and unmarshaling a mapping in which `K` is absent fails with
the missing-key error naming the same `K`. -/
theorem C4_required_leaf_missing_value_and_key :
    ∀ (delim : String) (pfx : List String) (fname tagName : String) (anon : Bool)
      (lty : GoType) (idx : Nat) (addr : Bool) (m mv : Mapping) (ctx : List String)
      (dst : GoValue),
      splitComma (tagName ++ ",required") = [tagName, "required"] →
      (lty = .stringT ∨ (∃ b, lty = .intT b) ∨
        lty = .sliceT .stringT ∨ (∃ b, lty = .sliceT (.intT b))) →
      getValue mv (leafKey delim pfx (if tagName == "" then fname else tagName)) = none →
      ∃ (lm : marshaler) (up : unmarshaler),
        newFieldMarshaler { toMarshalConfig := { Delimiter := delim }, Name := pfx }
            (fname, tagName ++ ",required", anon, lty) idx = .ok (idx, lm) ∧
        marshalGo lm (zeroOfType lty) addr m =
          .error (.err ("key " ++ leafKey delim pfx (if tagName == "" then fname else tagName) ++
            ": " ++ errMissingValue)) ∧
        newFieldUnmarshaler { toUnmarshalConfig := { Delimiter := delim }, Prefix := pfx }
            (fname, tagName ++ ",required", anon, lty) idx =
          .ok (leafKey delim pfx (if tagName == "" then fname else tagName),
               true, false, idx, up) ∧
        unmarshalFieldGo
            (leafKey delim pfx (if tagName == "" then fname else tagName),
             true, false, idx, up) ctx mv dst =
          .error (.err ("value not found for required key \"" ++
            leafKey delim pfx (if tagName == "" then fname else tagName) ++ "\"")) := by
  intro delim pfx fname tagName anon lty idx addr m mv ctx dst hsplit hleaf habsent
  have hkey : ∀ (K : String) (up : unmarshaler), getValue mv K = none →
      unmarshalFieldGo (K, true, false, idx, up) ctx mv dst =
        .error (.err ("value not found for required key \"" ++ K ++ "\"")) := by
    intro K up h
    simp [unmarshalFieldGo, fuNested, fuName, fuRequired, h]
  rcases hleaf with h | ⟨b, h⟩ | h | ⟨b, h⟩ <;> subst h
  · refine ⟨.stringM ⟨leafKey delim pfx (if tagName == "" then fname else tagName), true, false⟩,
      .stringU, ?_, rfl, ?_, hkey _ _ habsent⟩
    · simp only [newFieldMarshaler, fldTag, fldName, fldAnon, fldType, hsplit]
      simp [marshalConfig.applyOptions, marshalConfig.applyOption, newValueMarshaler,
        newSliceMarshaler, typImplements, newKeyMarshaler, marshalConfig.name,
        MarshalConfig.delimiter, leafKey]
      try rfl
    · simp only [newFieldUnmarshaler, fldTag, fldName, fldAnon, fldType, hsplit]
      by_cases hn : tagName = ""
      · subst hn
        cases anon <;>
          · simp [fieldApplyOptions, fieldApplyOption, newValueUnmarshaler, newSliceUnmarshaler,
              typImplements, leafKey, UnmarshalConfig.delimiter]
            try rfl
      · simp [fieldApplyOptions, fieldApplyOption, newValueUnmarshaler, newSliceUnmarshaler,
          typImplements, leafKey, UnmarshalConfig.delimiter, hn]
        try rfl
  · refine ⟨.intM ⟨leafKey delim pfx (if tagName == "" then fname else tagName), true, false⟩,
      .intU b, ?_, rfl, ?_, hkey _ _ habsent⟩
    · simp only [newFieldMarshaler, fldTag, fldName, fldAnon, fldType, hsplit]
      simp [marshalConfig.applyOptions, marshalConfig.applyOption, newValueMarshaler,
        newSliceMarshaler, typImplements, newKeyMarshaler, marshalConfig.name,
        MarshalConfig.delimiter, leafKey]
      try rfl
    · simp only [newFieldUnmarshaler, fldTag, fldName, fldAnon, fldType, hsplit]
      by_cases hn : tagName = ""
      · subst hn
        cases anon <;>
          · simp [fieldApplyOptions, fieldApplyOption, newValueUnmarshaler, newSliceUnmarshaler,
              typImplements, leafKey, UnmarshalConfig.delimiter]
            try rfl
      · simp [fieldApplyOptions, fieldApplyOption, newValueUnmarshaler, newSliceUnmarshaler,
          typImplements, leafKey, UnmarshalConfig.delimiter, hn]
        try rfl
  · refine ⟨.sliceM ⟨leafKey delim pfx (if tagName == "" then fname else tagName), true, false⟩ false,
      .sliceU (.sliceT .stringT) 0, ?_, rfl, ?_, hkey _ _ habsent⟩
    · simp only [newFieldMarshaler, fldTag, fldName, fldAnon, fldType, hsplit]
      simp [marshalConfig.applyOptions, marshalConfig.applyOption, newValueMarshaler,
        newSliceMarshaler, typImplements, newKeyMarshaler, marshalConfig.name,
        MarshalConfig.delimiter, leafKey]
      try rfl
    · simp only [newFieldUnmarshaler, fldTag, fldName, fldAnon, fldType, hsplit]
      by_cases hn : tagName = ""
      · subst hn
        cases anon <;>
          · simp [fieldApplyOptions, fieldApplyOption, newValueUnmarshaler, newSliceUnmarshaler,
              typImplements, leafKey, UnmarshalConfig.delimiter]
            try rfl
      · simp [fieldApplyOptions, fieldApplyOption, newValueUnmarshaler, newSliceUnmarshaler,
          typImplements, leafKey, UnmarshalConfig.delimiter, hn]
        try rfl
  · refine ⟨.sliceM ⟨leafKey delim pfx (if tagName == "" then fname else tagName), true, false⟩ true,
      .sliceU (.sliceT (.intT b)) b, ?_, rfl, ?_, hkey _ _ habsent⟩
    · simp only [newFieldMarshaler, fldTag, fldName, fldAnon, fldType, hsplit]
      simp [marshalConfig.applyOptions, marshalConfig.applyOption, newValueMarshaler,
        newSliceMarshaler, typImplements, newKeyMarshaler, marshalConfig.name,
        MarshalConfig.delimiter, leafKey]
      try rfl
    · simp only [newFieldUnmarshaler, fldTag, fldName, fldAnon, fldType, hsplit]
      by_cases hn : tagName = ""
      · subst hn
        cases anon <;>
          · simp [fieldApplyOptions, fieldApplyOption, newValueUnmarshaler, newSliceUnmarshaler,
              typImplements, leafKey, UnmarshalConfig.delimiter]
            try rfl
      · simp [fieldApplyOptions, fieldApplyOption, newValueUnmarshaler, newSliceUnmarshaler,
          typImplements, leafKey, UnmarshalConfig.delimiter, hn]
        try rfl


/-- Witness for C4 at a concrete instance: default delimiter, empty
prefix, field `LastName` with tag `,required` of type string; the
composed key is `LastName` and both directions report it. -/
theorem C4_required_leaf_missing_value_and_key_witness :
    splitComma ("" ++ ",required") = ["", "required"] ∧
    ((GoType.stringT = GoType.stringT ∨ (∃ b, GoType.stringT = GoType.intT b) ∨
       GoType.stringT = GoType.sliceT .stringT ∨
       (∃ b, GoType.stringT = GoType.sliceT (.intT b)))) ∧
    getValue [] (leafKey "" [] (if "" == "" then "LastName" else "")) = none ∧
    (∃ (lm : marshaler) (up : unmarshaler),
      newFieldMarshaler { toMarshalConfig := { Delimiter := "" }, Name := [] }
          ("LastName", "" ++ ",required", false, .stringT) 0 = .ok (0, lm) ∧
      marshalGo lm (zeroOfType .stringT) false [] =
        .error (.err ("key " ++ leafKey "" [] (if "" == "" then "LastName" else "") ++
          ": " ++ errMissingValue)) ∧
      newFieldUnmarshaler { toUnmarshalConfig := { Delimiter := "" }, Prefix := [] }
          ("LastName", "" ++ ",required", false, .stringT) 0 =
        .ok (leafKey "" [] (if "" == "" then "LastName" else ""), true, false, 0, up) ∧
      unmarshalFieldGo (leafKey "" [] (if "" == "" then "LastName" else ""),
          true, false, 0, up) [] [] (.structV [.str ""]) =
        .error (.err ("value not found for required key \"" ++
          leafKey "" [] (if "" == "" then "LastName" else "") ++ "\""))) :=
  ⟨rfl, Or.inl rfl, rfl,
    C4_required_leaf_missing_value_and_key "" [] "LastName" "" false .stringT 0 false [] [] []
      (.structV [.str ""]) rfl (Or.inl rfl) rfl⟩

/-- Claim C5 (confirmed).  For every leaf field tagged `omitempty` (same
generality as C4): marshaling the leaf's zero value returns the
destination mapping unchanged — so an initially-empty mapping stays
without the key, and any pre-existing entry under the key is left exactly
as it was — while unmarshaling a mapping in which the composed key is
absent sets the destination field to its zero value and succeeds. -/
theorem C5_omitempty_leaf_zero_is_noop :
    ∀ (delim : String) (pfx : List String) (fname tagName : String) (anon : Bool)
      (lty : GoType) (idx : Nat) (addr : Bool) (m mv : Mapping) (ctx : List String)
      (vs : List GoValue) (x : GoValue),
      splitComma (tagName ++ ",omitempty") = [tagName, "omitempty"] →
      (lty = .stringT ∨ (∃ b, lty = .intT b) ∨
        lty = .sliceT .stringT ∨ (∃ b, lty = .sliceT (.intT b))) →
      getValue mv (leafKey delim pfx (if tagName == "" then fname else tagName)) = none →
      vs.get? idx = some x →
      ∃ (lm : marshaler) (up : unmarshaler),
        newFieldMarshaler { toMarshalConfig := { Delimiter := delim }, Name := pfx }
            (fname, tagName ++ ",omitempty", anon, lty) idx = .ok (idx, lm) ∧
        marshalGo lm (zeroOfType lty) addr m = .ok m ∧
        newFieldUnmarshaler { toUnmarshalConfig := { Delimiter := delim }, Prefix := pfx }
            (fname, tagName ++ ",omitempty", anon, lty) idx =
          .ok (leafKey delim pfx (if tagName == "" then fname else tagName),
               false, false, idx, up) ∧
        unmarshalFieldGo
            (leafKey delim pfx (if tagName == "" then fname else tagName),
             false, false, idx, up) ctx mv (.structV vs) =
          .ok (.structV (vs.set idx (zeroOfValue x))) := by
  intro delim pfx fname tagName anon lty idx addr m mv ctx vs x hsplit hleaf habsent hfld
  have hzero : ∀ (K : String) (up : unmarshaler), getValue mv K = none →
      unmarshalFieldGo (K, false, false, idx, up) ctx mv (.structV vs) =
        .ok (.structV (vs.set idx (zeroOfValue x))) := by
    intro K up h
    have hfld2 : vs[idx]? = some x := by simpa using hfld
    simp [unmarshalFieldGo, fuNested, fuName, fuRequired, fuIndex, h, goField, hfld2, goSetField]
  rcases hleaf with h | ⟨b, h⟩ | h | ⟨b, h⟩ <;> subst h
  · refine ⟨.stringM ⟨leafKey delim pfx (if tagName == "" then fname else tagName), false, true⟩,
      .stringU, ?_, rfl, ?_, hzero _ _ habsent⟩
    · simp only [newFieldMarshaler, fldTag, fldName, fldAnon, fldType, hsplit]
      simp [marshalConfig.applyOptions, marshalConfig.applyOption, newValueMarshaler,
        newSliceMarshaler, typImplements, newKeyMarshaler, marshalConfig.name,
        MarshalConfig.delimiter, leafKey]
      try rfl
    · simp only [newFieldUnmarshaler, fldTag, fldName, fldAnon, fldType, hsplit]
      by_cases hn : tagName = ""
      · subst hn
        cases anon <;>
          · simp [fieldApplyOptions, fieldApplyOption, newValueUnmarshaler, newSliceUnmarshaler,
              typImplements, leafKey, UnmarshalConfig.delimiter]
            try rfl
      · simp [fieldApplyOptions, fieldApplyOption, newValueUnmarshaler, newSliceUnmarshaler,
          typImplements, leafKey, UnmarshalConfig.delimiter, hn]
        try rfl
  · refine ⟨.intM ⟨leafKey delim pfx (if tagName == "" then fname else tagName), false, true⟩,
      .intU b, ?_, rfl, ?_, hzero _ _ habsent⟩
    · simp only [newFieldMarshaler, fldTag, fldName, fldAnon, fldType, hsplit]
      simp [marshalConfig.applyOptions, marshalConfig.applyOption, newValueMarshaler,
        newSliceMarshaler, typImplements, newKeyMarshaler, marshalConfig.name,
        MarshalConfig.delimiter, leafKey]
      try rfl
    · simp only [newFieldUnmarshaler, fldTag, fldName, fldAnon, fldType, hsplit]
      by_cases hn : tagName = ""
      · subst hn
        cases anon <;>
          · simp [fieldApplyOptions, fieldApplyOption, newValueUnmarshaler, newSliceUnmarshaler,
              typImplements, leafKey, UnmarshalConfig.delimiter]
            try rfl
      · simp [fieldApplyOptions, fieldApplyOption, newValueUnmarshaler, newSliceUnmarshaler,
          typImplements, leafKey, UnmarshalConfig.delimiter, hn]
        try rfl
  · refine ⟨.sliceM ⟨leafKey delim pfx (if tagName == "" then fname else tagName), false, true⟩ false,
      .sliceU (.sliceT .stringT) 0, ?_, rfl, ?_, hzero _ _ habsent⟩
    · simp only [newFieldMarshaler, fldTag, fldName, fldAnon, fldType, hsplit]
      simp [marshalConfig.applyOptions, marshalConfig.applyOption, newValueMarshaler,
        newSliceMarshaler, typImplements, newKeyMarshaler, marshalConfig.name,
        MarshalConfig.delimiter, leafKey]
      try rfl
    · simp only [newFieldUnmarshaler, fldTag, fldName, fldAnon, fldType, hsplit]
      by_cases hn : tagName = ""
      · subst hn
        cases anon <;>
          · simp [fieldApplyOptions, fieldApplyOption, newValueUnmarshaler, newSliceUnmarshaler,
              typImplements, leafKey, UnmarshalConfig.delimiter]
            try rfl
      · simp [fieldApplyOptions, fieldApplyOption, newValueUnmarshaler, newSliceUnmarshaler,
          typImplements, leafKey, UnmarshalConfig.delimiter, hn]
        try rfl
  · refine ⟨.sliceM ⟨leafKey delim pfx (if tagName == "" then fname else tagName), false, true⟩ true,
      .sliceU (.sliceT (.intT b)) b, ?_, rfl, ?_, hzero _ _ habsent⟩
    · simp only [newFieldMarshaler, fldTag, fldName, fldAnon, fldType, hsplit]
      simp [marshalConfig.applyOptions, marshalConfig.applyOption, newValueMarshaler,
        newSliceMarshaler, typImplements, newKeyMarshaler, marshalConfig.name,
        MarshalConfig.delimiter, leafKey]
      try rfl
    · simp only [newFieldUnmarshaler, fldTag, fldName, fldAnon, fldType, hsplit]
      by_cases hn : tagName = ""
      · subst hn
        cases anon <;>
          · simp [fieldApplyOptions, fieldApplyOption, newValueUnmarshaler, newSliceUnmarshaler,
              typImplements, leafKey, UnmarshalConfig.delimiter]
            try rfl
      · simp [fieldApplyOptions, fieldApplyOption, newValueUnmarshaler, newSliceUnmarshaler,
          typImplements, leafKey, UnmarshalConfig.delimiter, hn]
        try rfl


/-- Witness for C5 at a concrete instance: field `FirstName` with tag
`,omitempty` of type string, a destination mapping that already holds an
entry under the composed key `FirstName` (left untouched), and a source
mapping without the key (field zeroed without error). -/
theorem C5_omitempty_leaf_zero_is_noop_witness :
    splitComma ("" ++ ",omitempty") = ["", "omitempty"] ∧
    getValue [] (leafKey "" [] (if "" == "" then "FirstName" else "")) = none ∧
    [GoValue.str "x"].get? 0 = some (GoValue.str "x") ∧
    (∃ (lm : marshaler) (up : unmarshaler),
      newFieldMarshaler { toMarshalConfig := { Delimiter := "" }, Name := [] }
          ("FirstName", "" ++ ",omitempty", false, .stringT) 0 = .ok (0, lm) ∧
      marshalGo lm (zeroOfType .stringT) false [("FirstName", ["old"])] =
        .ok [("FirstName", ["old"])] ∧
      newFieldUnmarshaler { toUnmarshalConfig := { Delimiter := "" }, Prefix := [] }
          ("FirstName", "" ++ ",omitempty", false, .stringT) 0 =
        .ok (leafKey "" [] (if "" == "" then "FirstName" else ""), false, false, 0, up) ∧
      unmarshalFieldGo (leafKey "" [] (if "" == "" then "FirstName" else ""),
          false, false, 0, up) [] [] (.structV [.str "x"]) =
        .ok (.structV ([GoValue.str "x"].set 0 (zeroOfValue (.str "x"))))) :=
  ⟨rfl, rfl, rfl,
    C5_omitempty_leaf_zero_is_noop "" [] "FirstName" "" false .stringT 0 false
      [("FirstName", ["old"])] [] [] [.str "x"] (.str "x") rfl (Or.inl rfl) rfl rfl⟩

/-- Claim C8 (confirmed).  For every cache state, key and compile
function: a hit returns the stored plan with the state unchanged — the
result does not mention the compile function at all, so it cannot have
been invoked; a miss invokes the compile function, and on failure returns
its error with the cache unchanged (so an identical subsequent `Get`
reaches the compile function again), while on success it stores the
result, which a subsequent lookup then finds. -/
theorem C8_cache_get_hit_miss_and_error_not_cached :
    ∀ (K V : Type) [BEq K] [LawfulBEq K] (stor : List (K × V)) (key : K)
      (getter : K → Except String V),
      (∀ val : V, storGet stor key = some val → cacheGet stor key getter = (.ok val, stor)) ∧
      (∀ e : String, storGet stor key = none → getter key = .error e →
        cacheGet stor key getter = (.error e, stor)) ∧
      (∀ val : V, storGet stor key = none → getter key = .ok val →
        cacheGet stor key getter = (.ok val, storSet stor key val) ∧
        storGet (storSet stor key val) key = some val) := by
  intro K V _ _ stor key getter
  have hss : ∀ (s : List (K × V)) (val : V), storGet (storSet s key val) key = some val := by
    intro s val
    induction s with
    | nil => simp [storSet, storGet]
    | cons kv rest ih =>
        by_cases h : kv.1 == key
        · simp [storSet, storGet, h]
        · simp only [storSet, storGet, h]
          simpa [storGet, h] using ih
  refine ⟨fun val h => ?_, fun e h hg => ?_, fun val h hg => ⟨?_, hss stor val⟩⟩
  · simp [cacheGet, h]
  · simp [cacheGet, getSync, h, hg]
  · simp [cacheGet, getSync, h, hg]

/-- Witness for C8: a hit on `[(0, 7)]` returns 7 and ignores a failing
compile function; on the empty cache a failing compile function leaves
the cache empty, and a succeeding one stores its result where the next
lookup finds it. -/
theorem C8_cache_get_hit_miss_and_error_not_cached_witness :
    storGet [((0 : Nat), (7 : Nat))] 0 = some 7 ∧
    cacheGet [((0 : Nat), (7 : Nat))] 0 (fun _ => .error "boom") = (.ok 7, [(0, 7)]) ∧
    storGet ([] : List (Nat × Nat)) 0 = none ∧
    cacheGet ([] : List (Nat × Nat)) 0 (fun _ => .error "boom") = (.error "boom", []) ∧
    cacheGet ([] : List (Nat × Nat)) 0 (fun _ => .ok 7) = (.ok 7, storSet [] 0 7) ∧
    storGet (storSet ([] : List (Nat × Nat)) 0 7) 0 = some 7 :=
  ⟨rfl,
   (C8_cache_get_hit_miss_and_error_not_cached Nat Nat [(0, 7)] 0 (fun _ => .error "boom")).1
     7 rfl,
   rfl,
   (C8_cache_get_hit_miss_and_error_not_cached Nat Nat [] 0 (fun _ => .error "boom")).2.1
     "boom" rfl rfl,
   ((C8_cache_get_hit_miss_and_error_not_cached Nat Nat [] 0 (fun _ => .ok 7)).2.2
     7 rfl rfl).1,
   ((C8_cache_get_hit_miss_and_error_not_cached Nat Nat [] 0 (fun _ => .ok 7)).2.2
     7 rfl rfl).2⟩

end Structmap
